import Mathlib

/-!
Verification of the retrieval-and-generation core of the repository
(`embedder.py`, `rag.py`) against its natural-language specification.

Modelling conventions (shallow embedding):
* Python `str` is modelled as `List Char`; `str.split()` (split on
  whitespace runs, dropping empties), `str.strip()`, `" ".join`, string
  slicing and concatenation are modelled character-exactly.
* Python `float` is modelled as `ℚ`; `round(x, 2)` is modelled by
  `round2` (round to the nearest multiple of 1/100).
* Python `int` is modelled as `Int`; list indexing `l[i]` with Python's
  negative-index semantics is `pyIndex`, slicing `l[a:b]` is `pySlice`;
  an `IndexError` is `Option.none`.
* The `while` loop of `chunk_text` can diverge (step `chunk_size -
  overlap` non-positive), so it is embedded with explicit fuel and
  returns `Option`: `none` means the loop has not finished within the
  given fuel.
* External effects (the sentence-transformer embedding, the faiss
  search, the HTTP generation backends, the availability probes) are
  taken as parameters: the faiss `index.search` outcome is a list of
  `(score, position)` hits, a generation backend call outcome is an
  `Except` value (`.error` = the raised exception's message), and the
  two availability probes are `Bool`s.
-/

/-! ### Python string primitives -/

/-- Word-at-a-time splitter on whitespace runs, structural on `fuel`
so that it evaluates in the kernel; `fuel ≥ length` always suffices
because every step consumes at least one character. -/
def pySplitFuel : Nat → List Char → List (List Char)
  | 0, _ => []
  | _ + 1, [] => []
  | fuel + 1, c :: cs =>
    if c.isWhitespace then pySplitFuel fuel cs
    else (c :: cs.takeWhile (fun d => !d.isWhitespace)) ::
      pySplitFuel fuel (cs.dropWhile (fun d => !d.isWhitespace))

/-- Python `str.split()` (no separator argument): split on runs of
whitespace, never producing empty words. -/
def pySplit (s : List Char) : List (List Char) :=
  pySplitFuel s.length s

/-- Python `" ".join(words)`. -/
def joinWords : List (List Char) → List Char
  | [] => []
  | [w] => w
  | w :: ws => w ++ ' ' :: joinWords ws

/-- Python `str.strip()`: remove leading and trailing whitespace. -/
def pyStrip (s : List Char) : List Char :=
  ((s.dropWhile Char.isWhitespace).reverse.dropWhile Char.isWhitespace).reverse

/-- Adjust one slice bound the way Python does for `l[a:b]`. -/
def pyAdj (len : Nat) (i : Int) : Nat :=
  if i < 0 then ((len : Int) + i).toNat else min i.toNat len

/-- Python slice `l[lo:hi]`. -/
def pySlice (l : List α) (lo hi : Int) : List α :=
  (l.take (pyAdj l.length hi)).drop (pyAdj l.length lo)

/-- Python indexing `l[i]` (negative `i` counts from the end);
`none` models an `IndexError`. -/
def pyIndex (l : List α) (i : Int) : Option α :=
  if 0 ≤ i then l.get? i.toNat
  else if 0 ≤ (l.length : Int) + i then l.get? ((l.length : Int) + i).toNat
  else none

/-- Helper for `pyDedup`: keep elements not yet seen. -/
def pyDedupGo [DecidableEq α] (seen : List α) : List α → List α
  | [] => []
  | a :: l => if a ∈ seen then pyDedupGo seen l else a :: pyDedupGo (a :: seen) l

/-- Python `list(dict.fromkeys(xs))`: deduplicate keeping the first
occurrence of each element, preserving order. -/
def pyDedup [DecidableEq α] (l : List α) : List α := pyDedupGo [] l

/-- Python `round(x, 2)` modelled over `ℚ`: round to the nearest
multiple of 1/100. -/
def round2 (q : ℚ) : ℚ := (round (q * 100) : ℤ) / 100

/-! ### `embedder.chunk_text` -/

/-- A chunk as produced by `chunk_text`: `{"text": ..., "source": ...}`. -/
structure Chunk where
  text : List Char
  source : List Char
deriving DecidableEq, Repr

/-- The body of `chunk_text`'s `while i < len(words)` loop, with
explicit fuel (`none` = the loop has not terminated within `fuel`
iterations).  Mirrors `embedder.py` lines 40-48: join the slice
`words[i:i+chunk_size]` with single spaces, append it when its strip is
non-empty, and advance `i` by `chunk_size - overlap` (an `Int` step, as
in Python, so it may be zero or negative). -/
def chunkTextLoop (words : List (List Char)) (sourceName : List Char)
    (chunkSize overlap : Nat) : Nat → Int → List Chunk → Option (List Chunk)
  | 0, _, _ => none
  | fuel + 1, i, acc =>
    if i < (words.length : Int) then
      chunkTextLoop words sourceName chunkSize overlap fuel
        (i + ((chunkSize : Int) - (overlap : Int)))
        (if pyStrip (joinWords (pySlice words i (i + (chunkSize : Int)))) ≠ [] then
          acc ++ [{ text := joinWords (pySlice words i (i + (chunkSize : Int))),
                    source := sourceName }]
         else acc)
    else some acc

/-- `embedder.chunk_text(text, source_name, chunk_size, overlap)`.
The loop runs at most `len(words)` iterations whenever the step is
positive, so fuel `len(words) + 1` is exact for every terminating
configuration; `none` therefore means the Python loop diverges within
that budget. -/
def chunk_text (text sourceName : List Char)
    (chunkSize : Nat := 600) (overlap : Nat := 100) : Option (List Chunk) :=
  let words := pySplit text
  chunkTextLoop words sourceName chunkSize overlap (words.length + 1) 0 []

/-! ### Lemmas about the string primitives -/

/-- All the words `str.split()` yields are non-empty and free of
whitespace. -/
def wordsOk (ws : List (List Char)) : Prop :=
  ∀ w ∈ ws, w ≠ [] ∧ ∀ c ∈ w, c.isWhitespace = false

instance : DecidablePred wordsOk := fun ws => by
  unfold wordsOk; infer_instance

lemma takeWhile_eq_self_of (p : α → Bool) :
    ∀ l : List α, (∀ x ∈ l, p x = true) → l.takeWhile p = l
  | [], _ => rfl
  | a :: l, h => by
    have ha : p a = true := h a (by simp)
    simp only [List.takeWhile_cons, ha, if_true]
    rw [takeWhile_eq_self_of p l (fun x hx => h x (by simp [hx]))]

lemma dropWhile_eq_nil_of (p : α → Bool) :
    ∀ l : List α, (∀ x ∈ l, p x = true) → l.dropWhile p = []
  | [], _ => rfl
  | a :: l, h => by
    have ha : p a = true := h a (by simp)
    simp only [List.dropWhile_cons, ha, if_true]
    exact dropWhile_eq_nil_of p l (fun x hx => h x (by simp [hx]))

lemma takeWhile_append_cons (p : α → Bool) (y : α) (zs : List α) (hy : p y = false) :
    ∀ xs : List α, (∀ x ∈ xs, p x = true) → (xs ++ y :: zs).takeWhile p = xs
  | [], _ => by simp [List.takeWhile_cons, hy]
  | a :: xs, h => by
    have ha : p a = true := h a (by simp)
    simp only [List.cons_append, List.takeWhile_cons, ha, if_true]
    rw [takeWhile_append_cons p y zs hy xs (fun x hx => h x (by simp [hx]))]

lemma dropWhile_append_cons (p : α → Bool) (y : α) (zs : List α) (hy : p y = false) :
    ∀ xs : List α, (∀ x ∈ xs, p x = true) → (xs ++ y :: zs).dropWhile p = y :: zs
  | [], _ => by simp [List.dropWhile_cons, hy]
  | a :: xs, h => by
    have ha : p a = true := h a (by simp)
    simp only [List.cons_append, List.dropWhile_cons, ha, if_true]
    exact dropWhile_append_cons p y zs hy xs (fun x hx => h x (by simp [hx]))

lemma mem_dropWhile_self (p : α → Bool) (x : α) (hpx : p x = false) :
    ∀ l : List α, x ∈ l → x ∈ l.dropWhile p
  | a :: l, hx => by
    by_cases ha : p a = true
    · simp only [List.dropWhile_cons, ha, if_true]
      rcases List.mem_cons.1 hx with rfl | hx
      · exact absurd ha (by simp [hpx])
      · exact mem_dropWhile_self p x hpx l hx
    · simp only [List.dropWhile_cons, ha, if_false]
      exact hx

/-- A list with a non-whitespace character strips to something
non-empty. -/
lemma pyStrip_ne_nil {l : List Char} {x : Char} (hx : x ∈ l)
    (hws : x.isWhitespace = false) : pyStrip l ≠ [] := by
  unfold pyStrip
  intro h
  have h1 : x ∈ l.dropWhile Char.isWhitespace := mem_dropWhile_self _ x hws l hx
  have h2 : x ∈ (l.dropWhile Char.isWhitespace).reverse := List.mem_reverse.2 h1
  have h3 : x ∈ ((l.dropWhile Char.isWhitespace).reverse.dropWhile Char.isWhitespace) :=
    mem_dropWhile_self _ x hws _ h2
  rw [List.reverse_eq_nil_iff.1 h] at h3
  exact absurd h3 (List.not_mem_nil x)

lemma pySplitFuel_nil : ∀ fuel, pySplitFuel fuel [] = []
  | 0 => rfl
  | _ + 1 => rfl

/-- Every word produced by the splitter is non-empty and whitespace-free. -/
lemma pySplitFuel_wordsOk : ∀ fuel s, wordsOk (pySplitFuel fuel s)
  | 0, _ => by intro w hw; simp [pySplitFuel] at hw
  | fuel + 1, [] => by intro w hw; simp [pySplitFuel] at hw
  | fuel + 1, c :: cs => by
    intro w hw
    by_cases hc : c.isWhitespace
    · rw [pySplitFuel, if_pos hc] at hw
      exact pySplitFuel_wordsOk fuel cs w hw
    · rw [pySplitFuel, if_neg hc] at hw
      rcases List.mem_cons.1 hw with rfl | hw
      · refine ⟨by simp, ?_⟩
        intro d hd
        rcases List.mem_cons.1 hd with rfl | hd
        · exact Bool.eq_false_iff.2 hc
        · have := List.mem_takeWhile_imp hd
          simpa using this
      · exact pySplitFuel_wordsOk fuel _ w hw

lemma pySplit_wordsOk (s : List Char) : wordsOk (pySplit s) :=
  pySplitFuel_wordsOk s.length s

/-- `wordsOk` passes to any window of the word list. -/
lemma wordsOk_window {ws : List (List Char)} (h : wordsOk ws) (i k : Nat) :
    wordsOk ((ws.drop i).take k) := fun w hw =>
  h w (List.mem_of_mem_drop (List.mem_of_mem_take hw))

lemma joinWords_cons_cons (w x : List Char) (ys : List (List Char)) :
    joinWords (w :: x :: ys) = w ++ ' ' :: joinWords (x :: ys) := rfl

/-- A non-empty list of good words joins to a string whose strip is
non-empty (so `chunk_text` keeps every window). -/
lemma pyStrip_joinWords_ne_nil {ws : List (List Char)} (h : wordsOk ws)
    (hne : ws ≠ []) : pyStrip (joinWords ws) ≠ [] := by
  obtain ⟨w, ws', rfl⟩ := List.exists_cons_of_ne_nil hne
  obtain ⟨hw, hwchars⟩ := h w (by simp)
  obtain ⟨c, w', rfl⟩ := List.exists_cons_of_ne_nil hw
  have hcw : c.isWhitespace = false := hwchars c (by simp)
  have hcmem : c ∈ joinWords ((c :: w') :: ws') := by
    cases ws' with
    | nil => simp [joinWords]
    | cons x ys => rw [joinWords_cons_cons]; simp
  exact pyStrip_ne_nil hcmem hcw

/-- Splitting the space-join of good words recovers exactly the words,
for any sufficient fuel. -/
lemma pySplitFuel_joinWords :
    ∀ ws : List (List Char), wordsOk ws →
      ∀ fuel, (joinWords ws).length ≤ fuel → pySplitFuel fuel (joinWords ws) = ws
  | [], _, fuel, _ => by
    cases fuel <;> simp [joinWords, pySplitFuel]
  | [w], h, fuel, hfuel => by
    obtain ⟨hw, hwc⟩ := h w (by simp)
    obtain ⟨c, w', rfl⟩ := List.exists_cons_of_ne_nil hw
    simp only [joinWords] at hfuel ⊢
    obtain ⟨fuel', rfl⟩ : ∃ fuel', fuel = fuel' + 1 := by
      cases fuel with
      | zero => simp at hfuel
      | succ n => exact ⟨n, rfl⟩
    have hc : ¬ c.isWhitespace := by
      have := hwc c (by simp); simp [this]
    rw [pySplitFuel, if_neg hc]
    have hall : ∀ x ∈ w', (!x.isWhitespace) = true := by
      intro x hx
      have := hwc x (by simp [hx]); simp [this]
    rw [takeWhile_eq_self_of _ w' hall, dropWhile_eq_nil_of _ w' hall, pySplitFuel_nil]
  | w :: x :: ys, h, fuel, hfuel => by
    obtain ⟨hw, hwc⟩ := h w (by simp)
    obtain ⟨c, w', rfl⟩ := List.exists_cons_of_ne_nil hw
    rw [joinWords_cons_cons] at hfuel ⊢
    obtain ⟨fuel', rfl⟩ : ∃ fuel', fuel = fuel' + 1 := by
      cases fuel with
      | zero => simp at hfuel
      | succ n => exact ⟨n, rfl⟩
    have hc : ¬ c.isWhitespace := by
      have := hwc c (by simp); simp [this]
    have hall : ∀ d ∈ w', (!d.isWhitespace) = true := by
      intro d hd
      have := hwc d (by simp [hd]); simp [this]
    have hsp : ((fun d : Char => !d.isWhitespace) ' ') = false := by decide
    simp only [List.cons_append, List.length_cons, List.length_append] at hfuel
    rw [List.cons_append, pySplitFuel, if_neg hc,
      takeWhile_append_cons _ ' ' _ hsp w' hall,
      dropWhile_append_cons _ ' ' _ hsp w' hall]
    obtain ⟨fuel'', rfl⟩ : ∃ fuel'', fuel' = fuel'' + 1 := by
      cases fuel' with
      | zero => omega
      | succ n => exact ⟨n, rfl⟩
    have hstep : pySplitFuel (fuel'' + 1) (' ' :: joinWords (x :: ys)) =
        pySplitFuel fuel'' (joinWords (x :: ys)) := rfl
    rw [hstep]
    rw [pySplitFuel_joinWords (x :: ys) (fun u hu => h u (by simp [List.mem_cons] at hu ⊢; tauto))
      fuel'' (by omega)]

/-- Splitting the space-join of good words recovers exactly the words. -/
lemma pySplit_joinWords (ws : List (List Char)) (h : wordsOk ws) :
    pySplit (joinWords ws) = ws :=
  pySplitFuel_joinWords ws h _ le_rfl

/-- The Python slice `l[n : n + k]` for a non-negative start is
`take k` after `drop n`. -/
lemma pySlice_natCast (l : List α) (n k : Nat) :
    pySlice l (n : Int) ((n : Int) + (k : Int)) = (l.drop n).take k := by
  have h1 : pyAdj l.length (n : Int) = min n l.length := by
    simp [pyAdj]
  have h2 : pyAdj l.length ((n : Int) + (k : Int)) = min (n + k) l.length := by
    unfold pyAdj
    rw [if_neg (by omega)]
    have ht : ((n : Int) + (k : Int)).toNat = n + k := by omega
    rw [ht]
  unfold pySlice
  rw [h1, h2]
  rcases le_or_lt l.length n with hln | hln
  · rw [min_eq_right hln, List.drop_of_length_le (by simp), List.drop_of_length_le hln]
    simp
  · rw [min_eq_left (le_of_lt hln), List.drop_take]
    rw [List.take_eq_take]
    simp only [List.length_drop]
    omega

/-! ### Characterization of `chunk_text` -/

/-- One step of the ceiling-count recurrence for the window starts. -/
lemma ceil_count_step (W i s : Nat) (hs : 0 < s) (hi : i < W) :
    (W - i + s - 1) / s = (W - (i + s) + s - 1) / s + 1 := by
  have hW : W - (i + s) = W - i - s := by omega
  rw [hW]
  generalize hn : W - i = n
  have hn1 : 1 ≤ n := by omega
  rcases le_or_lt n s with hns | hns
  · have h0 : n - s = 0 := by omega
    rw [h0]
    have hr : (0 + s - 1) / s = 0 := Nat.div_eq_of_lt (by omega)
    rw [hr]
    exact Nat.div_eq_of_lt_le (by omega) (by omega)
  · have h1 : n - s + s - 1 = n - 1 := by omega
    have h2 : n + s - 1 = n - 1 + s := by omega
    rw [h1, h2, Nat.add_div_right _ hs]

/-- The loop of `chunk_text`, started at word position `i` with enough
fuel and a positive step, returns the accumulated chunks followed by
one chunk per window start `i, i+s, i+2s, ...` below `len(words)`
(`s = chunk_size - overlap`); every window is kept because its words
are non-empty and whitespace-free. -/
lemma chunkTextLoop_eq (words : List (List Char)) (src : List Char) (cs ov : Nat)
    (hcv : ov < cs) (hw : wordsOk words) :
    ∀ fuel (i : Nat) acc, words.length - i < fuel →
      chunkTextLoop words src cs ov fuel (i : Int) acc =
        some (acc ++ (List.range ((words.length - i + (cs - ov) - 1) / (cs - ov))).map
          (fun j => { text := joinWords ((words.drop (i + (cs - ov) * j)).take cs),
                      source := src })) := by
  intro fuel
  induction fuel with
  | zero => intro i acc h; omega
  | succ fuel ih =>
    intro i acc hfuel
    by_cases hi : i < words.length
    · rw [chunkTextLoop, if_pos (by exact_mod_cast hi)]
      have hcast : (i : Int) + ((cs : Int) - (ov : Int)) = ((i + (cs - ov) : Nat) : Int) := by
        omega
      rw [hcast, pySlice_natCast words i cs]
      have hwin_ne : (words.drop i).take cs ≠ [] := by
        intro hcontra
        rcases List.take_eq_nil_iff.1 hcontra with h | h
        · omega
        · have := List.drop_eq_nil_iff.1 h
          omega
      have hne : pyStrip (joinWords ((words.drop i).take cs)) ≠ [] :=
        pyStrip_joinWords_ne_nil (wordsOk_window hw i cs) hwin_ne
      rw [if_pos hne]
      rw [ih (i + (cs - ov)) _ (by omega)]
      have hk := ceil_count_step words.length i (cs - ov) (by omega) hi
      rw [hk, List.range_succ_eq_map, List.map_cons, List.map_map]
      simp only [Nat.mul_zero, Nat.add_zero]
      rw [List.append_assoc, List.singleton_append]
      congr 2
      congr 1
      apply List.map_congr_left
      intro j _
      simp only [Function.comp_apply, Nat.succ_eq_add_one]
      have harg : i + (cs - ov) * (j + 1) = i + (cs - ov) + (cs - ov) * j := by ring
      rw [harg]
    · rw [chunkTextLoop, if_neg (by exact_mod_cast hi)]
      have h0 : words.length - i = 0 := by omega
      rw [h0]
      have hz : (0 + (cs - ov) - 1) / (cs - ov) = 0 := Nat.div_eq_of_lt (by omega)
      rw [hz]
      simp

/-- `chunk_text` for a positive step: one chunk per window start
`0, s, 2s, ...` below the word count, in order. -/
lemma chunk_text_eq (text src : List Char) (cs ov : Nat) (hcv : ov < cs) :
    chunk_text text src cs ov =
      some ((List.range (((pySplit text).length + (cs - ov) - 1) / (cs - ov))).map
        (fun j => { text := joinWords (((pySplit text).drop ((cs - ov) * j)).take cs),
                    source := src })) := by
  unfold chunk_text
  have h := chunkTextLoop_eq (pySplit text) src cs ov hcv (pySplit_wordsOk text)
    ((pySplit text).length + 1) 0 [] (by omega)
  simpa using h

/-- With a non-positive step and at least one word, the loop never
terminates: every fuel budget is exhausted. -/
lemma chunkTextLoop_none (words : List (List Char)) (src : List Char) (cs ov : Nat)
    (hvc : cs ≤ ov) (hne : words ≠ []) :
    ∀ fuel (i : Int), i ≤ 0 → ∀ acc, chunkTextLoop words src cs ov fuel i acc = none := by
  intro fuel
  induction fuel with
  | zero => intro i hi acc; rfl
  | succ fuel ih =>
    intro i hi acc
    have hlen : 0 < words.length := List.length_pos.2 hne
    rw [chunkTextLoop, if_pos (by omega)]
    exact ih _ (by omega) _

/-! ### Claim C1: chunk count, chunk size, and the 100-word overlap -/

/-- C1 counterexample: on a one-word text, `chunk_text` with
`chunk_size=600`, `overlap=100` produces one chunk, while the claimed
formula `ceil(max(W-overlap,0)/(chunk_size-overlap))` gives zero
chunks (`W = 1`). -/
theorem C1_counterexample :
    (chunk_text ['a'] ['s'] 600 100).map List.length = some 1 ∧
    (pySplit ['a']).length = 1 ∧
    (max ((pySplit ['a']).length - 100) 0 + 500 - 1) / 500 = 0 := by
  decide

/-- C1 (amended): for every text of `W` whitespace-separated words,
`chunk_text` with `chunk_size=600` and `overlap=100` returns exactly
`ceil(W/500)` chunks (not `ceil(max(W-100,0)/500)`); no chunk exceeds
600 words; and every pair of consecutive chunks except possibly the
last pair shares exactly 100 words (the first chunk of the pair is a
full 600-word window whose last 100 words are the first 100 words of
the next chunk). -/
theorem C1_chunk_text_windows (text src : List Char) :
    ∃ out, chunk_text text src 600 100 = some out ∧
      out.length = ((pySplit text).length + 499) / 500 ∧
      (∀ c ∈ out, (pySplit c.text).length ≤ 600) ∧
      (∀ j, j + 3 ≤ out.length →
        ∃ cj cj1, out[j]? = some cj ∧ out[j + 1]? = some cj1 ∧
          (pySplit cj.text).length = 600 ∧
          (pySplit cj.text).drop 500 = (pySplit cj1.text).take 100) := by
  have hout := chunk_text_eq text src 600 100 (by norm_num)
  norm_num at hout
  refine ⟨_, hout, ?_, ?_, ?_⟩
  · simp
  · intro c hc
    simp only [List.mem_map, List.mem_range] at hc
    obtain ⟨j, _, rfl⟩ := hc
    rw [pySplit_joinWords _ (wordsOk_window (pySplit_wordsOk text) _ _)]
    simp [List.length_take]
  · intro j hj
    simp only [List.length_map, List.length_range] at hj
    have hjW : 500 * j + 1001 ≤ (pySplit text).length := by omega
    have hj1 : j < ((pySplit text).length + 499) / 500 := by omega
    have hj2 : j + 1 < ((pySplit text).length + 499) / 500 := by omega
    refine ⟨{ text := joinWords (((pySplit text).drop (500 * j)).take 600), source := src },
            { text := joinWords (((pySplit text).drop (500 * (j + 1))).take 600), source := src },
            ?_, ?_, ?_, ?_⟩
    · rw [List.getElem?_map, List.getElem?_range hj1]; rfl
    · rw [List.getElem?_map, List.getElem?_range hj2]; rfl
    · rw [pySplit_joinWords _ (wordsOk_window (pySplit_wordsOk text) _ _)]
      simp only [List.length_take, List.length_drop]
      omega
    · rw [pySplit_joinWords _ (wordsOk_window (pySplit_wordsOk text) _ _),
        pySplit_joinWords _ (wordsOk_window (pySplit_wordsOk text) _ _)]
      rw [List.drop_take, List.take_take, List.drop_drop]
      have h1 : 600 - 500 = 100 := by norm_num
      have h2 : min 100 600 = 100 := by norm_num
      have h3 : 500 * j + 500 = 500 * (j + 1) := by ring
      rw [h1, h2, h3]

/-- C1 witness: a concrete 1001-word text yields 3 chunks, the first
of 600 words sharing its last 100 words with the second. -/
theorem C1_witness :
    ∃ out, chunk_text (joinWords (List.replicate 1001 ['a'])) ['s'] 600 100 = some out ∧
      out.length = 3 ∧
      (∃ cj cj1, out[0]? = some cj ∧ out[1]? = some cj1 ∧
        (pySplit cj.text).length = 600 ∧
        (pySplit cj.text).drop 500 = (pySplit cj1.text).take 100) := by
  obtain ⟨out, h1, h2, _, h4⟩ :=
    C1_chunk_text_windows (joinWords (List.replicate 1001 ['a'])) ['s']
  have hsplit : pySplit (joinWords (List.replicate 1001 ['a'])) = List.replicate 1001 ['a'] := by
    apply pySplit_joinWords
    intro w hw
    rw [List.eq_of_mem_replicate hw]
    exact ⟨by simp, by intro c hc; simp at hc; rw [hc]; decide⟩
  rw [hsplit] at h2
  simp only [List.length_replicate] at h2
  norm_num at h2
  exact ⟨out, h1, h2, h4 0 (by omega)⟩

/-! ### Claim C4: termination of `chunk_text` -/

/-- C4 counterexample: with `overlap = chunk_size = 1` on a one-word
text the implementation neither rejects nor clamps the configuration:
the loop is still running after exhausting a budget of 100 iterations
(a rejecting or clamping implementation would have returned within 2),
and in particular `chunk_text`'s own budget is exhausted. -/
theorem C4_counterexample :
    chunk_text ['a'] ['s'] 1 1 = none ∧
    chunkTextLoop (pySplit ['a']) ['s'] 1 1 100 0 [] = none := by
  decide

/-- C4 (amended): for `overlap < chunk_size`, `chunk_text` terminates
on every text; but for `overlap ≥ chunk_size` the implementation does
not reject or clamp the configuration — on any text with at least one
word the loop never terminates, whatever the iteration budget. -/
theorem C4_termination_dichotomy :
    (∀ text src cs ov, ov < cs → ∃ out, chunk_text text src cs ov = some out) ∧
    (∀ text src cs ov, cs ≤ ov → pySplit text ≠ [] →
      ∀ fuel acc, chunkTextLoop (pySplit text) src cs ov fuel 0 acc = none) := by
  constructor
  · intro text src cs ov h
    exact ⟨_, chunk_text_eq text src cs ov h⟩
  · intro text src cs ov h hne fuel acc
    exact chunkTextLoop_none (pySplit text) src cs ov h hne fuel 0 le_rfl acc

/-- C4 witness: the 600/100 default configuration terminates on a
concrete text, and the 1/1 configuration loops forever on it. -/
theorem C4_witness :
    (∃ out, chunk_text ['a'] ['s'] 600 100 = some out) ∧
    chunkTextLoop (pySplit ['a']) ['s'] 1 1 50 0 [] = none :=
  ⟨C4_termination_dichotomy.1 ['a'] ['s'] 600 100 (by norm_num),
   C4_termination_dichotomy.2 ['a'] ['s'] 1 1 (by norm_num) (by decide) 50 []⟩

/-! ### `embedder.retrieve`

`retrieve(question, index, chunks, top_k=3, threshold=0.35)` embeds
the question and calls `index.search(emb, top_k)`.  The embedding and
the faiss search are external: their outcome is modelled as the list
`searchHits` of `(score, position)` pairs — `zip(scores[0],
indices[0])` in the source.  faiss returns exactly `top_k` pairs,
padding with position `-1` when the index holds fewer vectors; the
theorems below take the hit list as arbitrary input. -/

/-- One retrieved entry `{"text": ..., "source": ..., "score": ...}`. -/
structure RetrievalResult where
  text : List Char
  source : List Char
  score : ℚ
deriving DecidableEq, Repr

/-- The `for score, idx in zip(scores[0], indices[0])` loop of
`retrieve` (`embedder.py` lines 123-130): keep a hit when
`score >= threshold and idx < len(chunks)`, reading `chunks[idx]`
with Python indexing; a raised `IndexError` (`pyIndex` = `none`)
aborts the whole call. -/
def retrieveLoop (chunks : List Chunk) (threshold : ℚ) :
    List (ℚ × Int) → Option (List RetrievalResult)
  | [] => some []
  | (score, idx) :: rest =>
    if score ≥ threshold ∧ idx < (chunks.length : Int) then
      match pyIndex chunks idx with
      | none => none
      | some c => (retrieveLoop chunks threshold rest).map
          (fun rs => { text := c.text, source := c.source, score := score } :: rs)
    else retrieveLoop chunks threshold rest

/-- `embedder.retrieve`, abstracted over the faiss search outcome. -/
def retrieve (searchHits : List (ℚ × Int)) (chunks : List Chunk)
    (threshold : ℚ := 35 / 100) : Option (List RetrievalResult) :=
  retrieveLoop chunks threshold searchHits

/-- Core facts about the loop: at most one result per hit, every kept
score clears the threshold, and the kept scores are a sublist of the
hit scores (so any order of the hits is preserved). -/
lemma retrieveLoop_spec (chunks : List Chunk) (threshold : ℚ) :
    ∀ hits rs, retrieveLoop chunks threshold hits = some rs →
      rs.length ≤ hits.length ∧ (∀ r ∈ rs, r.score ≥ threshold) ∧
        (rs.map RetrievalResult.score).Sublist (hits.map Prod.fst)
  | [], rs, h => by
    simp only [retrieveLoop, Option.some_inj] at h
    subst h
    simp
  | (score, idx) :: rest, rs, h => by
    rw [retrieveLoop] at h
    by_cases hcond : score ≥ threshold ∧ idx < (chunks.length : Int)
    · rw [if_pos hcond] at h
      cases hidx : pyIndex chunks idx with
      | none => rw [hidx] at h; simp at h
      | some c =>
        rw [hidx] at h
        obtain ⟨rs', hrs', rfl⟩ := Option.map_eq_some'.1 h
        obtain ⟨h1, h2, h3⟩ := retrieveLoop_spec chunks threshold rest rs' hrs'
        refine ⟨by simpa using h1, ?_, ?_⟩
        · intro r hr
          rcases List.mem_cons.1 hr with rfl | hr
          · exact hcond.1
          · exact h2 r hr
        · simpa using h3.cons₂ score
    · rw [if_neg hcond] at h
      obtain ⟨h1, h2, h3⟩ := retrieveLoop_spec chunks threshold rest rs h
      exact ⟨by simpa using Nat.le_succ_of_le h1, h2, by simpa using h3.cons score⟩

/-- Every successful `pyIndex` read is a read of a valid position. -/
lemma pyIndex_valid {l : List α} {i : Int} {a : α} (h : pyIndex l i = some a) :
    ∃ j : Nat, j < l.length ∧ l.get? j = some a := by
  unfold pyIndex at h
  split at h
  · exact ⟨i.toNat, (List.get?_eq_some.1 h).fst, h⟩
  · split at h
    · exact ⟨((l.length : Int) + i).toNat, (List.get?_eq_some.1 h).fst, h⟩
    · exact absurd h (by simp)

/-- Results all stem from valid chunk positions. -/
lemma retrieveLoop_valid (chunks : List Chunk) (threshold : ℚ) :
    ∀ hits rs, retrieveLoop chunks threshold hits = some rs →
      ∀ r ∈ rs, ∃ j : Nat, j < chunks.length ∧
        chunks.get? j = some { text := r.text, source := r.source }
  | [], rs, h => by
    simp only [retrieveLoop, Option.some_inj] at h
    subst h
    simp
  | (score, idx) :: rest, rs, h => by
    rw [retrieveLoop] at h
    by_cases hcond : score ≥ threshold ∧ idx < (chunks.length : Int)
    · rw [if_pos hcond] at h
      cases hidx : pyIndex chunks idx with
      | none => rw [hidx] at h; simp at h
      | some c =>
        rw [hidx] at h
        obtain ⟨rs', hrs', rfl⟩ := Option.map_eq_some'.1 h
        intro r hr
        rcases List.mem_cons.1 hr with rfl | hr
        · exact pyIndex_valid hidx
        · exact retrieveLoop_valid chunks threshold rest rs' hrs' r hr
    · rw [if_neg hcond] at h
      exact retrieveLoop_valid chunks threshold rest rs h

/-- Hits whose position is at least `len(chunks)` never contribute. -/
lemma retrieveLoop_filter_big (chunks : List Chunk) (threshold : ℚ) :
    ∀ hits, retrieveLoop chunks threshold
        (hits.filter (fun h => h.2 < (chunks.length : Int))) =
      retrieveLoop chunks threshold hits
  | [] => rfl
  | (score, idx) :: rest => by
    by_cases hbig : idx < (chunks.length : Int)
    · rw [List.filter_cons_of_pos (by simpa using hbig), retrieveLoop, retrieveLoop,
        retrieveLoop_filter_big chunks threshold rest]
    · rw [List.filter_cons_of_neg (by simpa using hbig), retrieveLoop,
        if_neg (by tauto), retrieveLoop_filter_big chunks threshold rest]

/-! ### Claim C3: out-of-range positions -/

/-- C3 counterexample: a hit at position `-1` (which faiss returns
when the index holds fewer than `top_k` vectors) is NOT discarded by
`retrieve` when its score clears the threshold: with two chunks it
yields the LAST chunk (Python negative indexing), not the empty result
the claim requires. -/
theorem C3_counterexample :
    retrieve [((1 : ℚ), (-1 : Int))] [{ text := ['a'], source := ['p'] },
        { text := ['b'], source := ['q'] }] (35 / 100) =
      some [{ text := ['b'], source := ['q'], score := (1 : ℚ) }] ∧
    some [{ text := ['b'], source := ['q'], score := (1 : ℚ) }] ≠
      some ([] : List RetrievalResult) := by
  constructor
  · rw [retrieve, retrieveLoop, if_pos (by norm_num)]
    have hidx : pyIndex [Chunk.mk ['a'] ['p'], Chunk.mk ['b'] ['q']] (-1) =
        some (Chunk.mk ['b'] ['q']) := by
      rw [pyIndex, if_neg (by norm_num), if_pos (by norm_num)]
      rfl
    rw [hidx]
    rfl
  · simp

/-- C3 (amended): every result returned by a successful `retrieve`
still corresponds to a valid position of the chunk list (no
out-of-bounds read can succeed: too-negative positions raise an
`IndexError` instead), and any hit with position `≥ len(chunks)` is
discarded; but hits with negative position (such as faiss's `-1`
padding) are NOT discarded — they index from the end of the list. -/
theorem C3_retrieve_positions (searchHits : List (ℚ × Int)) (chunks : List Chunk)
    (threshold : ℚ) (rs : List RetrievalResult)
    (hret : retrieve searchHits chunks threshold = some rs) :
    (∀ r ∈ rs, ∃ j : Nat, j < chunks.length ∧
      chunks.get? j = some { text := r.text, source := r.source }) ∧
    retrieve (searchHits.filter (fun h => h.2 < (chunks.length : Int)))
      chunks threshold = some rs := by
  refine ⟨retrieveLoop_valid chunks threshold searchHits rs hret, ?_⟩
  rw [retrieve, retrieveLoop_filter_big chunks threshold searchHits]
  exact hret

/-- C3 witness: a single valid hit at position 0 of a one-chunk list. -/
theorem C3_witness :
    (∀ r ∈ ([{ text := ['a'], source := ['p'], score := (1 : ℚ) }] : List RetrievalResult),
      ∃ j : Nat, j < ([{ text := ['a'], source := ['p'] }] : List Chunk).length ∧
        ([{ text := ['a'], source := ['p'] }] : List Chunk).get? j =
          some { text := r.text, source := r.source }) ∧
    retrieve (([((1 : ℚ), (0 : Int))]).filter
        (fun h => h.2 < (([{ text := ['a'], source := ['p'] }] : List Chunk).length : Int)))
      [{ text := ['a'], source := ['p'] }] (35 / 100) =
      some [{ text := ['a'], source := ['p'], score := (1 : ℚ) }] := by
  apply C3_retrieve_positions [((1 : ℚ), (0 : Int))] [{ text := ['a'], source := ['p'] }]
    (35 / 100) [{ text := ['a'], source := ['p'], score := (1 : ℚ) }]
  rw [retrieve, retrieveLoop, if_pos (by norm_num)]
  have hidx : pyIndex [Chunk.mk ['a'] ['p']] 0 = some (Chunk.mk ['a'] ['p']) := by
    rw [pyIndex, if_pos (by norm_num)]
    rfl
  rw [hidx]
  rfl

/-! ### Claim C5: retrieval bounds -/

/-- C5: assuming the underlying search returns its hits in descending
score order (and, per the faiss contract, at most `top_k` of them),
a successful `retrieve` returns at most `top_k` results, every
returned score is `≥ threshold`, and the results are sorted in
descending order by score. -/
theorem C5_retrieve_bounds (searchHits : List (ℚ × Int)) (chunks : List Chunk)
    (top_k : Nat) (threshold : ℚ) (rs : List RetrievalResult)
    (hlen : searchHits.length ≤ top_k)
    (hsorted : searchHits.Pairwise (fun a b => b.1 ≤ a.1))
    (hret : retrieve searchHits chunks threshold = some rs) :
    rs.length ≤ top_k ∧ (∀ r ∈ rs, r.score ≥ threshold) ∧
      (rs.map RetrievalResult.score).Pairwise (fun a b => b ≤ a) := by
  obtain ⟨h1, h2, h3⟩ := retrieveLoop_spec chunks threshold searchHits rs hret
  have hall : (searchHits.map Prod.fst).Pairwise (fun a b : ℚ => b ≤ a) :=
    List.pairwise_map.2 hsorted
  exact ⟨le_trans h1 hlen, h2, List.Pairwise.sublist h3 hall⟩

/-- C5 witness: two descending hits above threshold against a
two-chunk list. -/
theorem C5_witness :
    ([{ text := ['a'], source := ['p'], score := (9 : ℚ) / 10 },
      { text := ['b'], source := ['q'], score := (1 : ℚ) / 2 }] :
        List RetrievalResult).length ≤ 3 ∧
    (∀ r ∈ ([{ text := ['a'], source := ['p'], score := (9 : ℚ) / 10 },
      { text := ['b'], source := ['q'], score := (1 : ℚ) / 2 }] :
        List RetrievalResult), r.score ≥ (35 : ℚ) / 100) ∧
    (([{ text := ['a'], source := ['p'], score := (9 : ℚ) / 10 },
      { text := ['b'], source := ['q'], score := (1 : ℚ) / 2 }] :
        List RetrievalResult).map RetrievalResult.score).Pairwise (fun a b => b ≤ a) := by
  apply C5_retrieve_bounds
    [((9 : ℚ) / 10, (0 : Int)), ((1 : ℚ) / 2, (1 : Int))]
    [{ text := ['a'], source := ['p'] }, { text := ['b'], source := ['q'] }]
    3 ((35 : ℚ) / 100)
  · norm_num
  · norm_num
  · rw [retrieve, retrieveLoop, if_pos (by norm_num)]
    have hidx0 : pyIndex [Chunk.mk ['a'] ['p'], Chunk.mk ['b'] ['q']] 0 =
        some (Chunk.mk ['a'] ['p']) := by
      rw [pyIndex, if_pos (by norm_num)]
      rfl
    rw [hidx0, retrieveLoop, if_pos (by norm_num)]
    have hidx1 : pyIndex [Chunk.mk ['a'] ['p'], Chunk.mk ['b'] ['q']] 1 =
        some (Chunk.mk ['b'] ['q']) := by
      rw [pyIndex, if_pos (by norm_num)]
      rfl
    rw [hidx1]
    rfl

/-! ### `rag.generate_answer`

`generate_answer(question, index, chunks)` first probes the two
generation providers (`check_groq_available` = the `GROQ_API_KEY`
credential is present; `check_ollama_available` = an HTTP reachability
check), then calls `retrieve`, then calls one provider.  The probes,
the retrieval outcome and the generation-call outcome are external
effects, so the model takes them as parameters: `useGroq`/`useOllama`
are the probe results, `retrieved` is what `retrieve(question, index,
chunks)` returns, and `genOutcome` is the provider call's result
(`.error e` = the call raised an exception with message `e`, caught by
the `try/except` of `rag.py` lines 142-153).  Besides the answer
record the model returns two ghost flags recording whether retrieval
and generation were reached on the executed path. -/

/-- `rag.NO_CONTEXT_RESPONSE`: the canonical not-found sentinel. -/
def NO_CONTEXT_RESPONSE : List Char := "Not found in references.".data

/-- The fixed text of the provider-unavailable sentinel (`rag.py` line 108). -/
def NO_LLM_RESPONSE : List Char :=
  "No LLM available. Please configure GROQ_API_KEY or start Ollama.".data

/-- The `"N/A"` citation used by every sentinel record. -/
def NA_CITATION : List Char := "N/A".data

/-- An answer record `{answer, citation, confidence, snippet}`. -/
structure AnswerRecord where
  answer : List Char
  citation : List Char
  confidence : ℚ
  snippet : List Char
deriving DecidableEq, Repr

/-- Python `", ".join(words)` (used for the citation). -/
def joinComma : List (List Char) → List Char
  | [] => []
  | [w] => w
  | w :: ws => w ++ ',' :: ' ' :: joinComma ws

/-- `rag.generate_answer`, abstracted over its external effects; the
two `Bool`s of the result are ghost flags: (retrieval was performed,
a generation call was attempted). -/
def generate_answer (useGroq useOllama : Bool) (retrieved : List RetrievalResult)
    (genOutcome : Except (List Char) (List Char)) :
    AnswerRecord × Bool × Bool :=
  -- lines 106-112: no provider → Unavailable sentinel, before any retrieval
  if !useGroq && !useOllama then
    ({ answer := NO_LLM_RESPONSE, citation := NA_CITATION, confidence := 0, snippet := [] },
     false, false)
  else
    -- line 115: retrieval happens here
    match retrieved with
    -- lines 118-124: no results → NotFound sentinel
    | [] =>
      ({ answer := NO_CONTEXT_RESPONSE, citation := NA_CITATION, confidence := 0,
         snippet := [] }, true, false)
    | r0 :: rest =>
      -- lines 127-153: context/prompt assembly and the provider call are
      -- abstracted into genOutcome; avg_score is sum of scores / count
      match genOutcome with
      | .error e =>
        ({ answer := "Error generating answer: ".data ++ e, citation := NA_CITATION,
           confidence := 0, snippet := [] }, true, true)
      | .ok ans =>
        -- lines 155-168
        ({ answer := ans,
           citation := joinComma (pyDedup ((r0 :: rest).map RetrievalResult.source)),
           confidence :=
             round2 (((r0 :: rest).map RetrievalResult.score).sum / ((r0 :: rest).length : ℚ)),
           snippet := if r0.text ≠ [] then r0.text.take 300 ++ "...".data else [] },
         true, true)

/-! ### `rag.generate_batch_answers` and `rag.get_coverage_summary` -/

/-- One parsed questionnaire question `{number, question}`. -/
structure ParsedQuestion where
  number : Int
  question : List Char
deriving DecidableEq, Repr

/-- One element of the batch result (`rag.py` lines 181-188). -/
structure BatchAnswer where
  number : Int
  question : List Char
  answer : List Char
  citation : List Char
  confidence : ℚ
  snippet : List Char
deriving DecidableEq, Repr

/-- The external effects one `generate_answer` call sees: probe
results, retrieval outcome, generation outcome.  A batch run performs
fresh probes/retrieval/generation per question, so the loop takes one
`GenEnv` per question position. -/
structure GenEnv where
  useGroq : Bool
  useOllama : Bool
  retrieved : List RetrievalResult
  genOutcome : Except (List Char) (List Char)

/-- The record built from one question and one answer record
(`rag.py` lines 181-188). -/
def mkBatchAnswer (q : ParsedQuestion) (r : AnswerRecord) : BatchAnswer :=
  { number := q.number, question := q.question, answer := r.answer,
    citation := r.citation, confidence := r.confidence, snippet := r.snippet }

/-- The `for i, q in enumerate(questions)` loop of
`generate_batch_answers`; the optional progress callback only reports
`(i+1)/total` to the UI and does not affect the result, so it is not
modelled. -/
def batchLoop (env : Nat → GenEnv) : Nat → List ParsedQuestion → List BatchAnswer
  | _, [] => []
  | i, q :: rest =>
    mkBatchAnswer q
      (generate_answer (env i).useGroq (env i).useOllama (env i).retrieved
        (env i).genOutcome).1 ::
      batchLoop env (i + 1) rest

/-- `rag.generate_batch_answers(questions, index, chunks, progress_callback)`. -/
def generate_batch_answers (env : Nat → GenEnv) (questions : List ParsedQuestion) :
    List BatchAnswer :=
  batchLoop env 0 questions

/-- The coverage summary dict (`rag.py` lines 196-212). -/
structure CoverageSummary where
  total_questions : Nat
  answered : Nat
  not_found : Nat
  avg_confidence : ℚ
deriving DecidableEq, Repr

/-- `rag.get_coverage_summary(answers)`. -/
def get_coverage_summary (answers : List BatchAnswer) : CoverageSummary :=
  -- found = sum(1 for a in answers if a["answer"] != NO_CONTEXT_RESPONSE)
  let found := (answers.filter (fun a => a.answer ≠ NO_CONTEXT_RESPONSE)).length
  -- answered_confidences = [a["confidence"] for a in answers if ...]
  let confs := (answers.filter (fun a => a.answer ≠ NO_CONTEXT_RESPONSE)).map
    BatchAnswer.confidence
  { total_questions := answers.length
    answered := found
    not_found := answers.length - found
    avg_confidence := round2 (if confs ≠ [] then confs.sum / (confs.length : ℚ) else 0) }

/-! ### `embedder.build_index` -/

/-- A user's two persisted artifacts (`store.index`, `chunks.pkl`);
`none` = the file does not exist. -/
structure UserStore where
  indexFile : Option (List (List ℚ))
  chunksFile : Option (List Chunk)
deriving DecidableEq, Repr

/-- `embedder.build_index(all_chunks, user_id)`, with the embedding
function a parameter and the user's on-disk pair as explicit state.
It embeds every chunk in order (lines 75-78), stacks the vectors
(line 80) — `np.stack` raises `ValueError: need at least one array to
stack` on an empty list — and only then writes the two artifacts
(lines 83-85); an error therefore leaves the store untouched. -/
def build_index (embed : List Char → List ℚ) (all_chunks : List Chunk)
    (store : UserStore) :
    Except (List Char) (List (List ℚ) × List Chunk) × UserStore :=
  match all_chunks.map (fun c => embed c.text) with
  | [] => (.error "need at least one array to stack".data, store)
  | v :: vs =>
    (.ok (v :: vs, all_chunks),
     { indexFile := some (v :: vs), chunksFile := some all_chunks })

/-! ### Properties of `pyDedup` -/

lemma pyDedupGo_mem [DecidableEq α] (a : α) :
    ∀ (l seen : List α), a ∈ pyDedupGo seen l ↔ a ∈ l ∧ a ∉ seen
  | [], seen => by simp [pyDedupGo]
  | b :: l, seen => by
    rw [pyDedupGo]
    by_cases hb : b ∈ seen
    · rw [if_pos hb, pyDedupGo_mem a l seen]
      constructor
      · exact fun ⟨h1, h2⟩ => ⟨by simp [h1], h2⟩
      · rintro ⟨h1, h2⟩
        rcases List.mem_cons.1 h1 with rfl | h1
        · exact absurd hb h2
        · exact ⟨h1, h2⟩
    · rw [if_neg hb]
      by_cases hab : a = b
      · subst hab
        simp [hb]
      · rw [List.mem_cons, pyDedupGo_mem a l (b :: seen)]
        simp only [List.mem_cons, hab, false_or]

lemma pyDedupGo_nodup [DecidableEq α] :
    ∀ (l seen : List α), (pyDedupGo seen l).Nodup
  | [], _ => List.nodup_nil
  | b :: l, seen => by
    rw [pyDedupGo]
    by_cases hb : b ∈ seen
    · rw [if_pos hb]; exact pyDedupGo_nodup l seen
    · rw [if_neg hb]
      refine List.nodup_cons.2 ⟨?_, pyDedupGo_nodup l (b :: seen)⟩
      intro hc
      exact ((pyDedupGo_mem b l (b :: seen)).1 hc).2 (by simp)

lemma pyDedupGo_sublist [DecidableEq α] :
    ∀ (l seen : List α), (pyDedupGo seen l).Sublist l
  | [], _ => List.Sublist.refl []
  | b :: l, seen => by
    rw [pyDedupGo]
    by_cases hb : b ∈ seen
    · rw [if_pos hb]; exact (pyDedupGo_sublist l seen).cons b
    · rw [if_neg hb]; exact (pyDedupGo_sublist l (b :: seen)).cons₂ b

/-- `pyDedup` keeps exactly the elements of the input... -/
lemma pyDedup_mem [DecidableEq α] (a : α) (l : List α) : a ∈ pyDedup l ↔ a ∈ l := by
  rw [pyDedup, pyDedupGo_mem a l []]
  simp

/-- ... without duplicates ... -/
lemma pyDedup_nodup [DecidableEq α] (l : List α) : (pyDedup l).Nodup :=
  pyDedupGo_nodup l []

/-- ... preserving their order. -/
lemma pyDedup_sublist [DecidableEq α] (l : List α) : (pyDedup l).Sublist l :=
  pyDedupGo_sublist l []

/-! ### Claim C7: no provider available -/

/-- C7: when neither the cloud-credential probe nor the local
reachability probe succeeds, `generate_answer` returns the Unavailable
sentinel record (fixed text, citation "N/A", confidence 0), performing
no retrieval and no generation attempt (both ghost flags are false),
whatever retrieval would have returned and whatever a generation call
would have produced. -/
theorem C7_no_provider (retrieved : List RetrievalResult)
    (genOutcome : Except (List Char) (List Char)) :
    generate_answer false false retrieved genOutcome =
      ({ answer := NO_LLM_RESPONSE, citation := NA_CITATION, confidence := 0,
         snippet := [] }, false, false) := rfl

/-! ### Claim C2: empty retrieval -/

/-- C2 counterexample: with no provider available and empty retrieval,
`generate_answer` returns the Unavailable sentinel, not the "Not found
in references." sentinel — the claim's "regardless of whether any
generation provider is available" fails. -/
theorem C2_counterexample :
    (generate_answer false false [] (.ok ['x'])).1.answer = NO_LLM_RESPONSE ∧
    NO_LLM_RESPONSE ≠ NO_CONTEXT_RESPONSE := by
  exact ⟨rfl, by decide⟩

/-- C2 (amended): provided at least one generation provider is
available, empty retrieval makes `generate_answer` return the
canonical "Not found in references." sentinel with confidence 0 and
citation "N/A" (and no generation attempt); with no provider at all,
the Unavailable sentinel is returned instead. -/
theorem C2_not_found (useGroq useOllama : Bool)
    (genOutcome : Except (List Char) (List Char))
    (hprov : (useGroq || useOllama) = true) :
    generate_answer useGroq useOllama [] genOutcome =
      ({ answer := NO_CONTEXT_RESPONSE, citation := NA_CITATION, confidence := 0,
         snippet := [] }, true, false) := by
  cases useGroq
  · cases useOllama
    · simp at hprov
    · rfl
  · rfl

/-- C2 witness: the cloud provider alone suffices. -/
theorem C2_witness :
    generate_answer true false [] (.ok []) =
      ({ answer := NO_CONTEXT_RESPONSE, citation := NA_CITATION, confidence := 0,
         snippet := [] }, true, false) :=
  C2_not_found true false (.ok []) rfl

/-! ### Claim C6: fields of a successful answer record -/

/-- C6 counterexample: when the top-ranked retrieved chunk's text is
empty, the snippet is the empty string, not the claimed
truncation-with-ellipsis (which would be `"..."`). -/
theorem C6_counterexample :
    (generate_answer true false [{ text := [], source := ['s'], score := 1 }]
      (.ok ['x'])).1.snippet = [] ∧
    ([] : List Char) ≠ (([] : List Char).take 300 ++ "...".data) := by
  exact ⟨rfl, by decide⟩

/-- C6 (amended): whenever generation succeeds on a non-empty
retrieval (some provider available, retrieval non-empty, provider call
returned text), the answer record carries: the generated text;
`confidence` = the mean of the retrieved scores rounded to two decimal
places; `citation` = the comma-join of the retrieved chunks' source
names deduplicated keeping first occurrences (proved deduplicated:
`Nodup`; order-preserving: a sublist of the original sequence; and
containing exactly the retrieved sources); and `snippet` = the
top-ranked chunk's text truncated to its first 300 characters with a
trailing `"..."` — except that when the top-ranked chunk's text is
empty the snippet is the empty string. -/
theorem C6_success_fields (useGroq useOllama : Bool) (r0 : RetrievalResult)
    (rest : List RetrievalResult) (ans : List Char)
    (hprov : (useGroq || useOllama) = true) :
    (generate_answer useGroq useOllama (r0 :: rest) (.ok ans)).1 =
      { answer := ans,
        citation := joinComma (pyDedup ((r0 :: rest).map RetrievalResult.source)),
        confidence :=
          round2 (((r0 :: rest).map RetrievalResult.score).sum / ((r0 :: rest).length : ℚ)),
        snippet := if r0.text ≠ [] then r0.text.take 300 ++ "...".data else [] } ∧
    (pyDedup ((r0 :: rest).map RetrievalResult.source)).Nodup ∧
    (pyDedup ((r0 :: rest).map RetrievalResult.source)).Sublist
      ((r0 :: rest).map RetrievalResult.source) ∧
    (∀ s, s ∈ pyDedup ((r0 :: rest).map RetrievalResult.source) ↔
      s ∈ (r0 :: rest).map RetrievalResult.source) := by
  refine ⟨?_, pyDedup_nodup _, pyDedup_sublist _, fun s => pyDedup_mem s _⟩
  cases useGroq
  · cases useOllama
    · simp at hprov
    · rfl
  · rfl

/-- C6 witness: one provider, two retrieved chunks sharing a source. -/
theorem C6_witness :
    (generate_answer true false
        [{ text := ['a', 'b'], source := ['p'], score := 1 },
         { text := ['c'], source := ['p'], score := (1 : ℚ) / 2 }] (.ok ['y'])).1 =
      { answer := ['y'],
        citation := joinComma (pyDedup
          (([{ text := ['a', 'b'], source := ['p'], score := 1 },
             { text := ['c'], source := ['p'], score := (1 : ℚ) / 2 }] :
              List RetrievalResult).map RetrievalResult.source)),
        confidence := round2 ((([{ text := ['a', 'b'], source := ['p'], score := 1 },
             { text := ['c'], source := ['p'], score := (1 : ℚ) / 2 }] :
              List RetrievalResult).map RetrievalResult.score).sum /
          ((([{ text := ['a', 'b'], source := ['p'], score := 1 },
             { text := ['c'], source := ['p'], score := (1 : ℚ) / 2 }] :
              List RetrievalResult)).length : ℚ)),
        snippet := if (['a', 'b'] : List Char) ≠ [] then
            (['a', 'b'] : List Char).take 300 ++ "...".data
          else [] } ∧
    (pyDedup (([{ text := ['a', 'b'], source := ['p'], score := 1 },
       { text := ['c'], source := ['p'], score := (1 : ℚ) / 2 }] :
        List RetrievalResult).map RetrievalResult.source)).Nodup ∧
    (pyDedup (([{ text := ['a', 'b'], source := ['p'], score := 1 },
       { text := ['c'], source := ['p'], score := (1 : ℚ) / 2 }] :
        List RetrievalResult).map RetrievalResult.source)).Sublist
      (([{ text := ['a', 'b'], source := ['p'], score := 1 },
         { text := ['c'], source := ['p'], score := (1 : ℚ) / 2 }] :
          List RetrievalResult).map RetrievalResult.source) ∧
    (∀ s, s ∈ pyDedup (([{ text := ['a', 'b'], source := ['p'], score := 1 },
       { text := ['c'], source := ['p'], score := (1 : ℚ) / 2 }] :
        List RetrievalResult).map RetrievalResult.source) ↔
      s ∈ (([{ text := ['a', 'b'], source := ['p'], score := 1 },
         { text := ['c'], source := ['p'], score := (1 : ℚ) / 2 }] :
          List RetrievalResult)).map RetrievalResult.source) :=
  C6_success_fields true false _ _ ['y'] rfl

/-! ### Claim C8: coverage summary -/

lemma length_filter_add_length_filter_not (p : α → Bool) :
    ∀ l : List α, (l.filter p).length + (l.filter (fun a => !p a)).length = l.length
  | [] => rfl
  | a :: l => by
    by_cases ha : p a = true
    · rw [List.filter_cons_of_pos ha, List.filter_cons_of_neg (by simp [ha])]
      simp only [List.length_cons, List.length]
      rw [Nat.succ_add]
      exact congrArg Nat.succ (length_filter_add_length_filter_not p l)
    · rw [List.filter_cons_of_neg (by simpa using ha),
        List.filter_cons_of_pos (by simpa using ha)]
      simp only [List.length_cons, List.length]
      rw [Nat.add_succ]
      exact congrArg Nat.succ (length_filter_add_length_filter_not p l)

/-- C8 counterexample: `avg_confidence` is the ROUNDED mean, not the
mean: three answered records with confidences 0.1, 0.1 and 0.11 have
mean 31/300 but summary value 0.10. -/
theorem C8_counterexample :
    (get_coverage_summary
      [{ number := 1, question := [], answer := ['a'], citation := [], confidence := (1 : ℚ) / 10, snippet := [] },
       { number := 2, question := [], answer := ['a'], citation := [], confidence := (1 : ℚ) / 10, snippet := [] },
       { number := 3, question := [], answer := ['a'], citation := [], confidence := (11 : ℚ) / 100, snippet := [] }]).avg_confidence = 1 / 10 ∧
    ((1 : ℚ) / 10) ≠ (((1 : ℚ) / 10) + ((1 : ℚ) / 10) + ((11 : ℚ) / 100)) / 3 := by
  constructor
  · have hfil :
        ([{ number := 1, question := [], answer := ['a'], citation := [], confidence := (1 : ℚ) / 10, snippet := [] },
          { number := 2, question := [], answer := ['a'], citation := [], confidence := (1 : ℚ) / 10, snippet := [] },
          { number := 3, question := [], answer := ['a'], citation := [], confidence := (11 : ℚ) / 100, snippet := [] }] : List BatchAnswer).filter
          (fun a => a.answer ≠ NO_CONTEXT_RESPONSE) =
        [{ number := 1, question := [], answer := ['a'], citation := [], confidence := (1 : ℚ) / 10, snippet := [] },
         { number := 2, question := [], answer := ['a'], citation := [], confidence := (1 : ℚ) / 10, snippet := [] },
         { number := 3, question := [], answer := ['a'], citation := [], confidence := (11 : ℚ) / 100, snippet := [] }] := by
      rw [List.filter_cons_of_pos (by decide), List.filter_cons_of_pos (by decide),
        List.filter_cons_of_pos (by decide), List.filter_nil]
    rw [get_coverage_summary]
    simp only [hfil]
    rw [if_pos (by simp)]
    rw [round2, round_eq]
    norm_num
  · norm_num

/-- C8 (amended): `get_coverage_summary` counts exactly the records
whose answer text equals the canonical "Not found in references."
sentinel as `not_found` and all others as `answered`, with
`total_questions = answered + not_found = length`; and
`avg_confidence` is the mean of the answered records' confidences —
rounded to two decimal places — and equal to `round2 0 = 0` when no
record is answered. -/
theorem C8_coverage (answers : List BatchAnswer) :
    (get_coverage_summary answers).total_questions = answers.length ∧
    (get_coverage_summary answers).answered =
      (answers.filter (fun a => a.answer ≠ NO_CONTEXT_RESPONSE)).length ∧
    (get_coverage_summary answers).not_found =
      (answers.filter (fun a => a.answer = NO_CONTEXT_RESPONSE)).length ∧
    (get_coverage_summary answers).answered + (get_coverage_summary answers).not_found =
      answers.length ∧
    (get_coverage_summary answers).avg_confidence =
      round2 (if (answers.filter (fun a => a.answer ≠ NO_CONTEXT_RESPONSE)) = [] then 0
        else ((answers.filter (fun a => a.answer ≠ NO_CONTEXT_RESPONSE)).map
            BatchAnswer.confidence).sum /
          ((answers.filter (fun a => a.answer ≠ NO_CONTEXT_RESPONSE)).length : ℚ)) := by
  have hEq : (answers.filter
      (fun a => !(decide (a.answer ≠ NO_CONTEXT_RESPONSE)))) =
      (answers.filter (fun a => a.answer = NO_CONTEXT_RESPONSE)) := by
    apply List.filter_congr
    intro a _
    by_cases h : a.answer = NO_CONTEXT_RESPONSE <;> simp [h]
  have hsum := length_filter_add_length_filter_not
    (fun a : BatchAnswer => decide (a.answer ≠ NO_CONTEXT_RESPONSE)) answers
  rw [hEq] at hsum
  refine ⟨rfl, rfl, ?_, ?_, ?_⟩
  · show answers.length -
      (answers.filter (fun a => a.answer ≠ NO_CONTEXT_RESPONSE)).length = _
    omega
  · show (answers.filter (fun a => a.answer ≠ NO_CONTEXT_RESPONSE)).length +
      (answers.length -
        (answers.filter (fun a => a.answer ≠ NO_CONTEXT_RESPONSE)).length) = _
    omega
  · show round2 _ = round2 _
    congr 1
    by_cases hnil : (answers.filter (fun a => a.answer ≠ NO_CONTEXT_RESPONSE)) = []
    · have hconfs : (answers.filter (fun a => a.answer ≠ NO_CONTEXT_RESPONSE)).map
          BatchAnswer.confidence = [] := by rw [hnil]; rfl
      rw [if_neg (fun hcon => hcon hconfs), if_pos hnil]
    · rw [if_pos (by simpa using hnil), if_neg hnil]
      rw [List.length_map]

/-! ### Claim C9: batch answering -/

/-- The error path of one `generate_answer` call: a provider is
available, retrieval is non-empty, and the provider call raises. -/
lemma generate_answer_error (useGroq useOllama : Bool)
    (retrieved : List RetrievalResult) (e : List Char)
    (hprov : (useGroq || useOllama) = true) (hne : retrieved ≠ []) :
    (generate_answer useGroq useOllama retrieved (.error e)).1 =
      { answer := "Error generating answer: ".data ++ e, citation := NA_CITATION,
        confidence := 0, snippet := [] } := by
  obtain ⟨r0, rest, rfl⟩ := List.exists_cons_of_ne_nil hne
  cases useGroq
  · cases useOllama
    · simp at hprov
    · rfl
  · rfl

/-- Position `i` of the batch loop started at offset `k` is the record
for question `i` built from the `generate_answer` call with that
question's environment. -/
lemma batchLoop_get? (env : Nat → GenEnv) :
    ∀ (qs : List ParsedQuestion) (k i : Nat),
      (batchLoop env k qs).get? i = (qs.get? i).map (fun q =>
        mkBatchAnswer q
          (generate_answer (env (k + i)).useGroq (env (k + i)).useOllama
            (env (k + i)).retrieved (env (k + i)).genOutcome).1)
  | [], k, i => by simp [batchLoop]
  | q :: rest, k, 0 => by simp [batchLoop]
  | q :: rest, k, i + 1 => by
    rw [batchLoop]
    show (batchLoop env (k + 1) rest).get? i = _
    rw [batchLoop_get? env rest (k + 1) i]
    have hk : k + 1 + i = k + (i + 1) := by omega
    rw [hk]
    rfl

/-- C9: batch answering produces exactly one record per question, in
input order — record `i` pairs question `i`'s number and text with the
`generate_answer` outcome for question `i` — and when the provider
call for one question fails (provider available, retrieval non-empty,
call raised `e`), that record embeds the diagnostic with citation
"N/A" and confidence 0 while every other question is still processed
according to its own environment: no failure terminates the batch. -/
theorem C9_batch_isolation (env : Nat → GenEnv) (questions : List ParsedQuestion) :
    (generate_batch_answers env questions).length = questions.length ∧
    (∀ i : Nat, (generate_batch_answers env questions).get? i =
      (questions.get? i).map (fun q =>
        mkBatchAnswer q
          (generate_answer (env i).useGroq (env i).useOllama
            (env i).retrieved (env i).genOutcome).1)) ∧
    (∀ i q e, questions.get? i = some q →
      (env i).genOutcome = .error e →
      ((env i).useGroq || (env i).useOllama) = true →
      (env i).retrieved ≠ [] →
      (generate_batch_answers env questions).get? i = some
        { number := q.number, question := q.question,
          answer := "Error generating answer: ".data ++ e,
          citation := NA_CITATION, confidence := 0, snippet := [] }) := by
  have hget : ∀ i : Nat, (generate_batch_answers env questions).get? i =
      (questions.get? i).map (fun q =>
        mkBatchAnswer q
          (generate_answer (env i).useGroq (env i).useOllama
            (env i).retrieved (env i).genOutcome).1) := by
    intro i
    rw [generate_batch_answers, batchLoop_get? env questions 0 i]
    simp
  refine ⟨?_, hget, ?_⟩
  · have hlen : ∀ (qs : List ParsedQuestion) (k : Nat),
        (batchLoop env k qs).length = qs.length := by
      intro qs
      induction qs with
      | nil => intro k; rfl
      | cons q rest ih => intro k; rw [batchLoop]; simp [ih (k + 1)]
    exact hlen questions 0
  · intro i q e hq herr hprov hne
    rw [hget i, hq]
    have := generate_answer_error (env i).useGroq (env i).useOllama
      (env i).retrieved e hprov hne
    rw [← herr] at this
    rw [Option.map_some']
    rw [mkBatchAnswer, this]

/-- C9 witness: a two-question batch where the first question's
generation call fails and the second succeeds: both records are
produced, in order. -/
theorem C9_witness :
    (generate_batch_answers
      (fun i => if i = 0 then
          { useGroq := true, useOllama := false,
            retrieved := [{ text := ['a'], source := ['p'], score := 1 }],
            genOutcome := .error ['b'] }
        else
          { useGroq := true, useOllama := false,
            retrieved := [{ text := ['a'], source := ['p'], score := 1 }],
            genOutcome := .ok ['y'] })
      [{ number := 1, question := ['u'] }, { number := 2, question := ['v'] }]).length = 2 ∧
    (generate_batch_answers
      (fun i => if i = 0 then
          { useGroq := true, useOllama := false,
            retrieved := [{ text := ['a'], source := ['p'], score := 1 }],
            genOutcome := .error ['b'] }
        else
          { useGroq := true, useOllama := false,
            retrieved := [{ text := ['a'], source := ['p'], score := 1 }],
            genOutcome := .ok ['y'] })
      [{ number := 1, question := ['u'] }, { number := 2, question := ['v'] }]).get? 0 =
      some { number := 1, question := ['u'],
             answer := "Error generating answer: ".data ++ ['b'],
             citation := NA_CITATION, confidence := 0, snippet := [] } := by
  refine ⟨(C9_batch_isolation _ _).1, ?_⟩
  exact (C9_batch_isolation _ _).2.2 0 { number := 1, question := ['u'] } ['b']
    rfl rfl rfl (by simp)

/-! ### Claim C10: building from an empty chunk list -/

/-- C10: `build_index` called with an empty chunk sequence fails (the
`np.stack` of zero embedding vectors raises `ValueError`) before
either artifact is written: the returned store is exactly the input
store, whatever embedding function is in use and whatever the user had
persisted before. -/
theorem C10_build_index_empty (embed : List Char → List ℚ) (store : UserStore) :
    (build_index embed [] store).1 =
      .error "need at least one array to stack".data ∧
    (build_index embed [] store).2 = store :=
  ⟨rfl, rfl⟩
